import Mathlib

/-!
Verification of the constraint-generation core of the Constraint-Manager
repository (`constraint_manager/interface.py`).

Strings are modelled as `List Char`.  Python's `str.replace` (replace all
non-overlapping occurrences, scanning left to right, not rescanning the
replacement text) is modelled by `replaceList`; the structural `fuel`
argument of `replaceAux` is only a termination device, always instantiated
with the length of the scanned string, which every step strictly decreases.

Variable records (`PartConstant`, `DesignVariable`, `SignalGroup`, `Signal`)
all carry a `value` attribute that the substitution engine reads through
Python's `str(...)`.  A record's value is modelled by its string form:
`Option (List Char)`, where `none` is Python's `None` (the state left by the
constructors, whose string form is `"None"`), and `some s` is a populated
value whose `str(...)` is `s`.  Python dicts are modelled as association
lists in insertion order, which is exactly the iteration order the source
relies on.
-/

/-- `numChar c` holds for the characters matched by `[0-9\.]` in the
regular expression of `Interface.eval_expressions`. -/
def numChar (c : Char) : Bool := c.isDigit || c = '.'

/-- `opChar c` holds for the four arithmetic-operator characters (plus,
star, minus, slash) matched by the operator character class in the regular
expression of `Interface.eval_expressions`. -/
def opChar (c : Char) : Bool := c = '+' || c = '*' || c = '-' || c = '/'

/-- One step of Python's `str.replace(pat, rep)` on `List Char`, with a
fuel argument for structural termination: at each position, if `pat` is a
prefix, emit `rep` and continue after the matched occurrence; otherwise
keep the character and move one position right.  The replacement text is
never rescanned, exactly as in Python.  `fuel` is always called with at
least the length of the string, and each step consumes at least one
character, so the `0` base case is never reached by `replaceList`. -/
def replaceAux (pat rep : List Char) : Nat → List Char → List Char
  | 0, s => s
  | _ + 1, [] => []
  | fuel + 1, c :: cs =>
    if pat.isPrefixOf (c :: cs) then
      rep ++ replaceAux pat rep fuel (List.drop (pat.length - 1) cs)
    else
      c :: replaceAux pat rep fuel cs

/-- Python's `s.replace(pat, rep)` for a non-empty pattern (every pattern
used by the source is `'$' + name`, hence non-empty). -/
def replaceList (pat rep s : List Char) : List Char :=
  replaceAux pat rep s.length s

/-- Python's `str(value)` for a variable record's `value` attribute:
`str(None)` is the literal string `"None"`; a populated value is modelled
directly by its string form. -/
def strValue : Option (List Char) → List Char
  | none => "None".data
  | some s => s

/-- One binding of a variable-record dictionary: the record's name paired
with the string form of its `value` attribute (`none` for Python `None`). -/
abbrev Binding := List Char × Option (List Char)

/-- `Interface._variable_sub(raw_constraint, prop)` (interface.py lines
308-322): iterate over one variable-record dictionary in insertion order
and perform `constraint = constraint.replace('$' + name, str(obj.value))`
for each binding. -/
def varSubOne (dict : List Binding) (raw_constraint : List Char) : List Char :=
  dict.foldl (fun c nv => replaceList ('$' :: nv.1) (strValue nv.2) c) raw_constraint

/-- The `Interface` state that the generation pipeline reads: the four
variable-record dictionaries (insertion-ordered association lists mapping a
name to the string form of the record's `value`), and the parsed constraint
list.  Each constraint object is abstracted by the result of its
`gen_constraint()` production: `none` is the Python `None` sentinel
("not applicable"), `some t` is a produced template string.  (The concrete
`Constraint` variants live in `constraint.py`, outside the sources; the
pipeline only consumes their productions.) -/
structure Interface where
  part_constants : List Binding
  dsn_variables : List Binding
  signal_groups : List Binding
  signals : List Binding
  constraints : List (Option (List Char))

/-- `Interface.variable_sub` (interface.py lines 289-306): run
`_variable_sub` for `part_constants`, `dsn_variables`, `signal_groups`,
`signals`, in that fixed order. -/
def variable_sub (iface : Interface) (raw_constraint : List Char) : List Char :=
  varSubOne iface.signals
    (varSubOne iface.signal_groups
      (varSubOne iface.dsn_variables
        (varSubOne iface.part_constants raw_constraint)))

/-!
The expression evaluator (`Interface.eval_expressions`, interface.py lines
272-287) compiles the pattern (optional minus, a run of digits/dots,
spaces, one operator, spaces, optional minus, a run of digits/dots), runs
`findall` over the constraint, and for each matched text performs
`constraint = constraint.replace(match, str(round(eval(match), 2)))`,
with no exception handling: an `eval` failure propagates out.

Numeric values are modelled exactly: Python int results as `Int`, Python
float results as exact fractions (`PyRat`, an unreduced pair).  All
arithmetic reached by the claims is exactly representable, where Python's
binary floats and these fractions agree.
-/

/-- An unreduced fraction `num / den` (with `den > 0` in every use),
modelling the exact value of a Python float produced by the evaluator. -/
structure PyRat where
  num : Int
  den : Int
deriving DecidableEq

/-- A Python number as produced by `eval` on a matched expression: an
`int` or a `float` (modelled by its exact rational value). -/
inductive PyNum where
  | int : Int → PyNum
  | float : PyRat → PyNum
deriving DecidableEq

/-- The parts of one regex match: optional leading minus, first digit/dot
run, spaces, the operator character, spaces, optional minus, second
digit/dot run. -/
structure MatchParts where
  neg1 : Bool
  num1 : List Char
  sp1 : List Char
  op : Char
  sp2 : List Char
  neg2 : Bool
  num2 : List Char
deriving DecidableEq

/-- The exact text span a `MatchParts` value was matched from. -/
def partsText (p : MatchParts) : List Char :=
  (if p.neg1 then ['-'] else []) ++ p.num1 ++ p.sp1 ++ p.op :: p.sp2
    ++ (if p.neg2 then ['-'] else []) ++ p.num2

/-- Consume an optional leading minus sign (the `-?` of the pattern). -/
def matchSign (s : List Char) : Bool × List Char :=
  if s.head? = some '-' then (true, s.tail) else (false, s)

/-- Attempt the compiled pattern at the start of `s`.  Each greedy piece is
a maximal `takeWhile` run; since the digit/dot class, the space and the
operator class are mutually disjoint, the backtracking regex engine agrees
with this maximal-munch reading.  Returns the parsed parts and the
remainder of the string after the match. -/
def matchExp (s : List Char) : Option (MatchParts × List Char) :=
  let pr1 := matchSign s
  let d1 := pr1.2.takeWhile numChar
  let r2 := pr1.2.dropWhile numChar
  if d1.isEmpty then none
  else
    let sp1 := r2.takeWhile (fun c => c = ' ')
    match r2.dropWhile (fun c => c = ' ') with
    | [] => none
    | op :: r4 =>
      if opChar op then
        let sp2 := r4.takeWhile (fun c => c = ' ')
        let r5 := r4.dropWhile (fun c => c = ' ')
        let pr2 := matchSign r5
        let d2 := pr2.2.takeWhile numChar
        let r7 := pr2.2.dropWhile numChar
        if d2.isEmpty then none
        else
          some ({ neg1 := pr1.1, num1 := d1, sp1 := sp1, op := op,
                  sp2 := sp2, neg2 := pr2.1, num2 := d2 }, r7)
      else none

/-- `re.findall` for this pattern, with a structural fuel argument (always
called with the string length; every step consumes at least one
character): scan left to right, at each position try the pattern; on a
match record its text and resume after it, otherwise advance one
character. -/
def findAllAux : Nat → List Char → List (List Char)
  | 0, _ => []
  | _ + 1, [] => []
  | fuel + 1, c :: cs =>
    match matchExp (c :: cs) with
    | some pr => partsText pr.1 :: findAllAux fuel pr.2
    | none => findAllAux fuel cs

/-- The list of matched texts of `pattern.findall(constraint)`. -/
def findAll (s : List Char) : List (List Char) := findAllAux s.length s

/-- The numeric value of a run of digit/dot characters, read as a decimal
digit string (callers guarantee the run contains digits only). -/
def digitsToNat (ds : List Char) : Nat :=
  ds.foldl (fun a c => a * 10 + (c.toNat - 48)) 0

/-- Python 3 rejects an integer literal with a leading zero unless the
literal consists only of zeros (`"0"`, `"00"` are `0`; `"01"` is a
`SyntaxError`). -/
def intLitOK (ds : List Char) : Bool :=
  match ds with
  | '0' :: rest => rest.all (fun c => c = '0')
  | _ => true

/-- Python `eval` on one digit/dot run of the match: an int literal when it
has no dot (rejecting bad leading zeros), a float literal when it has
exactly one dot and at least one digit, and a `SyntaxError` (`none`)
otherwise (e.g. `"1.2.3"` or `"."`). -/
def parseNumLit (ds : List Char) : Option PyNum :=
  if ds.isEmpty then none
  else if ds.count '.' = 0 then
    if intLitOK ds then some (.int (digitsToNat ds)) else none
  else if ds.count '.' = 1 then
    if ds.all (fun c => c = '.') then none
    else
      let ip := ds.takeWhile (fun c => c ≠ '.')
      let fp := (ds.dropWhile (fun c => c ≠ '.')).tail
      some (.float ⟨(digitsToNat ip : Int) * (10 : Int) ^ fp.length
        + (digitsToNat fp : Int), (10 : Int) ^ fp.length⟩)
  else none

/-- Apply a leading unary minus of the match to the parsed literal. -/
def applySign (neg : Bool) : PyNum → PyNum
  | .int n => .int (if neg then -n else n)
  | .float q => .float (if neg then ⟨-q.num, q.den⟩ else q)

/-- View a Python number as an exact fraction. -/
def toRatV : PyNum → PyRat
  | .int n => ⟨n, 1⟩
  | .float q => q

/-- Integer arithmetic for `+`, `-`, `*` on two int operands. -/
def intArith (op : Char) (m n : Int) : Int :=
  if op = '+' then m + n else if op = '-' then m - n else m * n

/-- Exact fraction arithmetic for `+`, `-`, `*`. -/
def ratArith (op : Char) (a b : PyRat) : PyRat :=
  if op = '+' then ⟨a.num * b.den + b.num * a.den, a.den * b.den⟩
  else if op = '-' then ⟨a.num * b.den - b.num * a.den, a.den * b.den⟩
  else ⟨a.num * b.num, a.den * b.den⟩

/-- Python's binary arithmetic on the matched operands: `/` is true
division, producing a float, and raises `ZeroDivisionError` (`none`) on a
zero divisor; `+`, `-`, `*` stay int on two ints and produce a float
otherwise. -/
def pyBinop (op : Char) (a b : PyNum) : Option PyNum :=
  if op = '/' then
    let x := toRatV a
    let y := toRatV b
    if y.num = 0 then none
    else if y.num < 0 then some (.float ⟨-(x.num * y.den), x.den * -y.num⟩)
    else some (.float ⟨x.num * y.den, x.den * y.num⟩)
  else
    match a, b with
    | .int m, .int n => some (.int (intArith op m n))
    | _, _ => some (.float (ratArith op (toRatV a) (toRatV b)))

/-- Python `eval` of the matched two-operand expression. -/
def evalParts (p : MatchParts) : Option PyNum :=
  match parseNumLit p.num1, parseNumLit p.num2 with
  | some a, some b => pyBinop p.op (applySign p.neg1 a) (applySign p.neg2 b)
  | _, _ => none

/-- The value of a float, in hundredths, after Python's `round(x, 2)`:
banker's rounding (round half to even) of `100 * x`.  Requires `den > 0`,
which holds for every fraction the evaluator builds. -/
def roundHundredths (q : PyRat) : Int :=
  let n := q.num * 100
  let f := Int.fdiv n q.den
  let r := n - f * q.den
  if 2 * r < q.den then f
  else if q.den < 2 * r then f + 1
  else if f % 2 = 0 then f else f + 1

/-- Python `str` of an integer. -/
def intToDec (n : Int) : List Char :=
  if n < 0 then '-' :: Nat.toDigits 10 n.natAbs else Nat.toDigits 10 n.natAbs

/-- Python `str` of the float `k / 100` (the result of `round(x, 2)`):
integer part, a dot, then the hundredths with a trailing zero digit
dropped (`1250 ↦ "12.5"`, `300 ↦ "3.0"`, `175 ↦ "1.75"`). -/
def renderHundredths (k : Int) : List Char :=
  let a := k.natAbs
  let frac := a % 100
  let fracDigits :=
    if frac % 10 = 0 then [Nat.digitChar (frac / 10)]
    else [Nat.digitChar (frac / 10), Nat.digitChar (frac % 10)]
  (if k < 0 then ['-'] else []) ++ Nat.toDigits 10 (a / 100) ++ '.' :: fracDigits

/-- Python `str(round(v, 2))`: `round` keeps an int unchanged; a float is
rounded to hundredths and rendered. -/
def strRound2 : PyNum → List Char
  | .int n => intToDec n
  | .float q => renderHundredths (roundHundredths q)

/-- The loop body's value for one matched text: re-parse the span (a text
produced by `findAll` re-parses to its own parts with empty remainder) and
model `str(round(eval(match), 2))`; `none` is a propagating `eval`
exception (invalid literal or division by zero). -/
def evalFold (m : List Char) : Option (List Char) :=
  match matchExp m with
  | some pr =>
    if pr.2.isEmpty then
      match evalParts pr.1 with
      | some v => some (strRound2 v)
      | none => none
    else none
  | none => none

/-- The `for match in matches` loop of `eval_expressions`: evaluate each
matched text in order and replace all its occurrences in the current
string; an `eval` exception aborts the whole call. -/
def evalLoop : List (List Char) → List Char → Option (List Char)
  | [], c => some c
  | m :: ms, c =>
    match evalFold m with
    | some r => evalLoop ms (replaceList m r c)
    | none => none

/-- `Interface.eval_expressions` (interface.py lines 272-287): find all
matches of the arithmetic pattern in the original string, then fold them
with the replace loop; `none` models a propagating exception. -/
def eval_expressions (constraint : List Char) : Option (List Char) :=
  evalLoop (findAll constraint) constraint

/-- The loop of `Interface.gen_constraints` (interface.py lines 254-270):
walk the stored constraint list in order; a `None` production is skipped;
otherwise substitute then evaluate, appending the result.  The source has
no exception handling, so a propagating evaluator exception (`none` from
`eval_expressions`) aborts the whole call. -/
def genLoop (iface : Interface) : List (Option (List Char)) → Option (List (List Char))
  | [] => some []
  | none :: rest => genLoop iface rest
  | some t :: rest =>
    match eval_expressions (variable_sub iface t), genLoop iface rest with
    | some line, some more => some (line :: more)
    | _, _ => none

/-- `Interface.gen_constraints` (interface.py lines 254-270). -/
def gen_constraints (iface : Interface) : Option (List (List Char)) :=
  genLoop iface iface.constraints

/-- Map a fallible function over a list, in order, failing as soon as one
application fails (the Option-monad map, written out explicitly). -/
def listMapOption (f : List Char → Option (List Char)) : List (List Char) → Option (List (List Char))
  | [] => some []
  | t :: ts =>
    match f t, listMapOption f ts with
    | some line, some more => some (line :: more)
    | _, _ => none

/-- Written from the words of the spec's Generation Pipeline contract
(spec §4.5), to be compared with the source's `gen_constraints`: take the
constraint productions in stored order, drop the "not applicable"
sentinels, and produce one line per remaining template, the Expression
Evaluator applied to the Substitution Engine applied to that template,
failing if any line's evaluation fails. -/
def gen_constraints_spec_form (iface : Interface) : Option (List (List Char)) :=
  listMapOption (fun t => eval_expressions (variable_sub iface t))
    (iface.constraints.filterMap id)

/-!
The constraint parsing of `Interface.parse_constraints` (interface.py
lines 223-236) consumes the two-level constraints section (kind, then
name, then a properties mapping) and calls `constraint_factory(kind)` for
every (name, props) entry.  `constraint_factory` itself lives in
`constraint.py`, which is not among the sources, so it is modelled from
the spec below.  Properties mappings and constructed constraint objects
are abstracted as association lists and name/properties pairs: their
content never influences the success of parsing.
-/

/-- A constraint's properties mapping, abstracted. -/
abbrev PropsM := List (List Char × List Char)

/-- A constructed constraint object, abstracted by its construction data. -/
structure ConstraintObj where
  name : List Char
  props : PropsM
deriving DecidableEq

/-- The Constraint Kind Registry: a mapping from kind-identifier strings to
constraint constructors. -/
abbrev Registry := List (List Char × (List Char → PropsM → ConstraintObj))

/-- Association-list lookup by name (the model of a Python dict lookup). -/
def lookupName (k : List Char) : Registry → Option (List Char → PropsM → ConstraintObj)
  | [] => none
  | (k', v) :: rest => if k' = k then some v else lookupName k rest

/-- Modelled from the spec: `constraint_factory` (in `constraint.py`,
absent from the sources) consults the Constraint Kind Registry for the
given kind string; per spec §4.2, lookup of an unregistered kind fails
loudly with an "unknown constraint kind" error rather than returning a
default, modelled by `none`. -/
def constraint_factory (registry : Registry) (kind : List Char) :
    Option (List Char → PropsM → ConstraintObj) :=
  lookupName kind registry

/-- The inner loop of `parse_constraints`: for each (name, props) entry of
one kind's dictionary, obtain the kind's constructor from the factory (a
fatal configuration error — `none` — if the kind is unregistered) and
construct the constraint. -/
def parseKindGroup (registry : Registry) (kind : List Char) :
    List (List Char × PropsM) → Option (List ConstraintObj)
  | [] => some []
  | (name, props) :: rest =>
    match constraint_factory registry kind, parseKindGroup registry kind rest with
    | some ctor, some more => some (ctor name props :: more)
    | _, _ => none

/-- `Interface.parse_constraints` (interface.py lines 223-236): iterate the
outer (kind → inner dict) mapping in order, appending each kind's
constructed constraints; a factory failure anywhere propagates. -/
def parse_constraints (registry : Registry) :
    List (List Char × List (List Char × PropsM)) → Option (List ConstraintObj)
  | [] => some []
  | (kind, ds) :: rest =>
    match parseKindGroup registry kind ds, parse_constraints registry rest with
    | some cs, some more => some (cs ++ more)
    | _, _ => none

/-!
Concrete instances used by the claim witnesses and counterexamples.
-/

/-- An interface whose `part_constants` and `signals` dictionaries both
define `clk`, with different populated values (`"5"` vs `"9"`). -/
def ifacePrec : Interface :=
  { part_constants := [("clk".data, some "5".data)]
    dsn_variables := []
    signal_groups := []
    signals := [("clk".data, some "9".data)]
    constraints := [] }

/-- An interface whose `part_constants` dictionary holds `clk` (value
`"A"`) inserted before `clk_period` (value `"B"`). -/
def ifaceShortFirst : Interface :=
  { part_constants := [("clk".data, some "A".data), ("clk_period".data, some "B".data)]
    dsn_variables := []
    signal_groups := []
    signals := []
    constraints := [] }

/-- An interface whose `part_constants` dictionary holds `clk_period`
(value `"B"`) inserted before `clk` (value `"A"`). -/
def ifaceLongFirst : Interface :=
  { part_constants := [("clk_period".data, some "B".data), ("clk".data, some "A".data)]
    dsn_variables := []
    signal_groups := []
    signals := []
    constraints := [] }

/-- An interface defining only the part constant `clk`, whose single
constraint produces the template `"$unknown_name"`. -/
def ifaceUnknownTok : Interface :=
  { part_constants := [("clk".data, some "5".data)]
    dsn_variables := []
    signal_groups := []
    signals := []
    constraints := [some ('$' :: "unknown_name".data)] }

/-- An interface whose part constant `clk` was never populated (its
`value` is still the constructor's `None`). -/
def ifaceUnsetVal : Interface :=
  { part_constants := [("clk".data, none)]
    dsn_variables := []
    signal_groups := []
    signals := []
    constraints := [] }

/-- A registry with a single registered kind, `false_path`. -/
def registryOne : Registry :=
  [("false_path".data, fun n p => { name := n, props := p })]

/-- A constraints section referencing the unregistered kind `bogus`, with
one constraint under it. -/
def yamlUnknownKind : List (List Char × List (List Char × PropsM)) :=
  [("bogus".data, [("c1".data, [])])]

/-!
Lemmas about the substitution engine.
-/

/-- `replaceAux` maps the empty string to itself at any fuel. -/
theorem replaceAux_nil (pat rep : List Char) (fuel : Nat) :
    replaceAux pat rep fuel [] = [] := by
  cases fuel <;> rfl

/-- A replace whose pattern does not occur in the string is the
identity. -/
theorem replaceAux_no_occurrence (pat rep : List Char) :
    ∀ (fuel : Nat) (s : List Char), ¬ pat <:+: s → replaceAux pat rep fuel s = s
  | 0, s, _ => rfl
  | _ + 1, [], _ => rfl
  | fuel + 1, c :: cs, h => by
    have hp : pat.isPrefixOf (c :: cs) = false := by
      cases hip : pat.isPrefixOf (c :: cs) with
      | false => rfl
      | true =>
        exact absurd (List.isPrefixOf_iff_prefix.mp hip).isInfix h
    have ih := replaceAux_no_occurrence pat rep fuel cs
      (fun hin => h (List.infix_cons hin))
    simp [replaceAux, hp, ih]

/-- Python `s.replace(pat, rep)` with a pattern that does not occur in `s`
returns `s` unchanged. -/
theorem replaceList_no_occurrence (pat rep s : List Char) (h : ¬ pat <:+: s) :
    replaceList pat rep s = s :=
  replaceAux_no_occurrence pat rep s.length s h

/-- Replacing a non-empty pattern inside exactly itself yields exactly the
replacement. -/
theorem replaceList_self (pat rep : List Char) (hne : pat ≠ []) :
    replaceList pat rep pat = rep := by
  cases pat with
  | nil => exact absurd rfl hne
  | cons p ps =>
    have hp : (p :: ps).isPrefixOf (p :: ps) = true := by
      simp [List.isPrefixOf_iff_prefix]
    simp [replaceList, replaceAux, hp, List.drop_length, replaceAux_nil]

/-- A pattern starting with the marker character cannot occur in a string
free of the marker. -/
theorem dollar_pat_absent (M s : List Char) (hs : '$' ∉ s) :
    ¬ ('$' :: M) <:+: s :=
  fun h => hs (h.subset (List.mem_cons_self '$' M))

/-- A full namespace pass leaves a marker-free string unchanged. -/
theorem varSubOne_dollar_free (dict : List Binding) (s : List Char) (hs : '$' ∉ s) :
    varSubOne dict s = s := by
  induction dict with
  | nil => rfl
  | cons b bs ih =>
    show List.foldl _ _ (b :: bs) = s
    rw [List.foldl_cons,
      replaceList_no_occurrence _ _ _ (dollar_pat_absent b.1 s hs)]
    exact ih

/-- If the token body `N` is marker-free, an occurrence of the token
`$M` inside the token `$N` forces `M` to be a prefix of `N`. -/
theorem dollar_occurrence_front {M N : List Char} (hN : '$' ∉ N)
    (h : ('$' :: M) <:+: ('$' :: N)) : M <+: N := by
  obtain ⟨a, b, hab⟩ := h
  cases a with
  | nil =>
    refine ⟨b, ?_⟩
    simpa using hab
  | cons x a' =>
    exfalso
    have hx : x :: (a' ++ ('$' :: M) ++ b) = '$' :: N := by simpa using hab
    have hN' : N = a' ++ ('$' :: M) ++ b := (List.cons.injEq _ _ _ _ ▸ hx).2.symm
    exact hN (hN' ▸ (by simp : '$' ∈ a' ++ ('$' :: M) ++ b))

/-- A namespace pass none of whose names is a prefix of the marker-free
token body `N` leaves the token `$N` unchanged. -/
theorem varSubOne_skip (dict : List Binding) (N : List Char) (hN : '$' ∉ N)
    (h : ∀ M x, (M, x) ∈ dict → ¬ M <+: N) :
    varSubOne dict ('$' :: N) = '$' :: N := by
  induction dict with
  | nil => rfl
  | cons b bs ih =>
    show List.foldl _ _ (b :: bs) = '$' :: N
    have hb : ¬ ('$' :: b.1) <:+: ('$' :: N) := fun hin =>
      h b.1 b.2 (List.mem_cons_self b bs) (dollar_occurrence_front hN hin)
    rw [List.foldl_cons, replaceList_no_occurrence _ _ _ hb]
    exact ih (fun M x hm => h M x (List.mem_cons_of_mem b hm))

/-- The namespace pass that first defines the marker-free token body `N`
(no earlier name in the pass being a prefix of `N`) rewrites the token
`$N` to the string form of `N`'s value; nothing further in the pass
touches the result when the value's string form is marker-free. -/
theorem varSubOne_hit (pre post : List Binding) (N : List Char)
    (v : Option (List Char)) (hpre : ∀ M x, (M, x) ∈ pre → ¬ M <+: N)
    (hN : '$' ∉ N) (hv : '$' ∉ strValue v) :
    varSubOne (pre ++ (N, v) :: post) ('$' :: N) = strValue v := by
  show List.foldl _ _ (pre ++ (N, v) :: post) = strValue v
  rw [List.foldl_append]
  have h1 : List.foldl _ _ pre = '$' :: N := varSubOne_skip pre N hN hpre
  rw [h1, List.foldl_cons, replaceList_self _ _ (by simp)]
  exact varSubOne_dollar_free post (strValue v) hv

/-!
Lemmas about the expression evaluator and the pipelines.
-/

/-- `takeWhile` of a list none of whose elements satisfies the predicate
is empty. -/
theorem takeWhile_eq_nil_of_none {p : Char → Bool} :
    ∀ {l : List Char}, (∀ c ∈ l, p c = false) → l.takeWhile p = []
  | [], _ => rfl
  | c :: cs, h => by
    simp [List.takeWhile_cons, h c (List.mem_cons_self c cs)]

/-- The remainder after the optional sign is made of characters of the
original string. -/
theorem matchSign_snd_subset (s : List Char) : ∀ c ∈ (matchSign s).2, c ∈ s := by
  intro c hc
  unfold matchSign at hc
  by_cases h : s.head? = some '-'
  · simp [h] at hc
    exact List.mem_of_mem_tail hc
  · simpa [h] using hc

/-- The pattern cannot match at the start of a string containing no
digit/dot character: its first mandatory piece is a non-empty digit/dot
run. -/
theorem matchExp_none_of_no_num (s : List Char) (h : ∀ c ∈ s, numChar c = false) :
    matchExp s = none := by
  have hd1 : (matchSign s).2.takeWhile numChar = [] :=
    takeWhile_eq_nil_of_none (fun c hc => h c (matchSign_snd_subset s c hc))
  unfold matchExp
  simp [hd1]

/-- `findall` on a string containing no digit/dot character finds no
matches, at any fuel. -/
theorem findAllAux_nil_of_no_num :
    ∀ (fuel : Nat) (s : List Char), (∀ c ∈ s, numChar c = false) →
      findAllAux fuel s = []
  | 0, _, _ => rfl
  | _ + 1, [], _ => rfl
  | fuel + 1, c :: cs, h => by
    have hm := matchExp_none_of_no_num (c :: cs) h
    have ih := findAllAux_nil_of_no_num fuel cs
      (fun x hx => h x (List.mem_cons_of_mem c hx))
    simp [findAllAux, hm, ih]

/-- `findall` on a string containing no digit/dot character finds no
matches. -/
theorem findAll_nil_of_no_num (s : List Char) (h : ∀ c ∈ s, numChar c = false) :
    findAll s = [] :=
  findAllAux_nil_of_no_num s.length s h

/-- A string with an empty match list is returned by the evaluator
unchanged. -/
theorem eval_expressions_of_no_match (s : List Char) (h : findAll s = []) :
    eval_expressions s = some s := by
  unfold eval_expressions
  rw [h]
  rfl

/-- If any matched text in the list fails to evaluate, the replace loop
propagates the failure, whatever the current string. -/
theorem evalLoop_none_of_mem :
    ∀ (ms : List (List Char)) (m : List Char), m ∈ ms → evalFold m = none →
      ∀ c, evalLoop ms c = none
  | m' :: ms', m, hm, hf, c => by
    cases hf' : evalFold m' with
    | none => simp [evalLoop, hf']
    | some r =>
      rcases List.mem_cons.mp hm with h | h
      · rw [h] at hf
        rw [hf] at hf'
        exact absurd hf' (by simp)
      · simp [evalLoop, hf']
        exact evalLoop_none_of_mem ms' m h hf (replaceList m' r c)

/-- The generation loop agrees with the spec-worded pipeline on every
constraint list. -/
theorem genLoop_eq_spec (iface : Interface) :
    ∀ cs : List (Option (List Char)),
      genLoop iface cs =
        listMapOption (fun t => eval_expressions (variable_sub iface t)) (cs.filterMap id)
  | [] => rfl
  | none :: rest => by
    have ih := genLoop_eq_spec iface rest
    simpa [genLoop, List.filterMap_cons] using ih
  | some t :: rest => by
    have ih := genLoop_eq_spec iface rest
    simp [genLoop, List.filterMap_cons, listMapOption, ih]

/-- A kind group with at least one entry under an unregistered kind fails
to parse. -/
theorem parseKindGroup_none (registry : Registry) (kind : List Char)
    (n : List Char) (p : PropsM) (ds : List (List Char × PropsM))
    (hunk : constraint_factory registry kind = none) :
    parseKindGroup registry kind ((n, p) :: ds) = none := by
  simp [parseKindGroup, hunk]

/-- A constraints section containing an unregistered kind with at least
one constraint under it fails to parse, wherever the kind appears. -/
theorem parse_constraints_none_of_unknown (registry : Registry)
    (kind n : List Char) (p : PropsM) (ds : List (List Char × PropsM)) :
    ∀ sections : List (List Char × List (List Char × PropsM)),
      (kind, (n, p) :: ds) ∈ sections →
      constraint_factory registry kind = none →
      parse_constraints registry sections = none
  | (k', ds') :: rest, hm, hunk => by
    rcases List.mem_cons.mp hm with h | h
    · have hk : k' = kind ∧ ds' = (n, p) :: ds := by
        constructor <;> [exact (Prod.mk.injEq _ _ _ _ ▸ h.symm).1;
          exact (Prod.mk.injEq _ _ _ _ ▸ h.symm).2]
      rw [hk.1, hk.2] at *
      simp [parse_constraints, parseKindGroup_none registry kind n p ds hunk]
    · have ih := parse_constraints_none_of_unknown registry kind n p ds rest h hunk
      simp [parse_constraints, ih]

/-!
The claims.
-/

/-- Claim C1: namespace precedence of substitution.  For a token name `N`
defined both in `part_constants` (value `v`) and in `signals` (value `w`,
different), substituting the token `$N` yields the string form of the
`part_constants` value: the `part_constants` pass runs first and the token
disappears once substituted.  The side conditions say that `N` really is a
single token the pass can hit: no name inserted before it in
`part_constants` is a prefix of it, and neither it nor the substituted
value contains the marker character. -/
theorem precedence_part_constants_over_signals (iface : Interface)
    (N : List Char) (v w : Option (List Char)) (pre post : List Binding)
    (hpcs : iface.part_constants = pre ++ (N, v) :: post)
    (hpre : ∀ M x, (M, x) ∈ pre → ¬ M <+: N)
    (hN : '$' ∉ N) (hv : '$' ∉ strValue v)
    (hsig : (N, w) ∈ iface.signals)
    (hdiff : strValue w ≠ strValue v) :
    variable_sub iface ('$' :: N) = strValue v := by
  unfold variable_sub
  rw [hpcs, varSubOne_hit pre post N v hpre hN hv,
    varSubOne_dollar_free _ _ hv, varSubOne_dollar_free _ _ hv,
    varSubOne_dollar_free _ _ hv]

/-- Witness for C1: on `ifacePrec` (part constant `clk = "5"`, signal
`clk = "9"`), the token `$clk` substitutes to `"5"`. -/
theorem precedence_part_constants_over_signals_witness :
    variable_sub ifacePrec ('$' :: "clk".data) = "5".data :=
  precedence_part_constants_over_signals ifacePrec "clk".data
    (some "5".data) (some "9".data) [] [] rfl
    (fun M x hm => absurd hm (List.not_mem_nil (M, x)))
    (by decide) (by decide) (by decide) (by decide)

/-- Counterexample to claim C2 (longest-name token matching): with `clk`
inserted before `clk_period` in the same namespace, the token
`$clk_period` is truncated by the substitution of the shorter name — the
output is `"A_period"`, not the longer name's value `"B"`. -/
theorem longest_match_counterexample :
    variable_sub ifaceShortFirst ('$' :: "clk_period".data) = "A_period".data ∧
      variable_sub ifaceShortFirst ('$' :: "clk_period".data) ≠ "B".data := by
  exact ⟨by decide, by decide⟩

/-- Claim C2 as amended: token matching is by dictionary insertion order
of plain textual replacement, not by longest available name.  A token
spelling the longer of two prefix-related names is replaced by the longer
name's value exactly when the longer name's binding precedes every binding
whose name is a prefix of it; when the shorter prefix name is inserted
first the token is truncated (see the counterexample). -/
theorem longer_name_first_substitutes_fully (iface : Interface)
    (L S : List Char) (v x : Option (List Char)) (pre post : List Binding)
    (hpcs : iface.part_constants = pre ++ (L, v) :: post)
    (hS : (S, x) ∈ post) (hSL : S <+: L) (hne : S ≠ L)
    (hpre : ∀ M y, (M, y) ∈ pre → ¬ M <+: L)
    (hL : '$' ∉ L) (hv : '$' ∉ strValue v) :
    variable_sub iface ('$' :: L) = strValue v := by
  unfold variable_sub
  rw [hpcs, varSubOne_hit pre post L v hpre hL hv,
    varSubOne_dollar_free _ _ hv, varSubOne_dollar_free _ _ hv,
    varSubOne_dollar_free _ _ hv]

/-- Witness for the amended C2: on `ifaceLongFirst` (`clk_period = "B"`
inserted before `clk = "A"`), the token `$clk_period` substitutes to
`"B"`. -/
theorem longer_name_first_substitutes_fully_witness :
    variable_sub ifaceLongFirst ('$' :: "clk_period".data) = "B".data :=
  longer_name_first_substitutes_fully ifaceLongFirst
    "clk_period".data "clk".data (some "B".data) (some "A".data) []
    [("clk".data, some "A".data)] rfl (by decide) (by decide) (by decide)
    (fun M y hm => absurd hm (List.not_mem_nil (M, y)))
    (by decide) (by decide)

/-- Counterexample to claim C3 (full folding of a chain): the evaluator
computes its match list once, on the original string; on `"1+2+3"` the
only match is `"1+2"`, so the call returns `"3+3"` — a string still
containing an operator, not a single numeric literal (and not `"6"`). -/
theorem pairwise_fold_counterexample :
    eval_expressions "1+2+3".data = some "3+3".data ∧
      eval_expressions "1+2+3".data ≠ some "6".data ∧ '+' ∈ "3+3".data := by
  exact ⟨by decide, by decide, by decide⟩

/-- Claim C3 as amended: the evaluator folds one pairwise match per run.
On `"1+2+3"` the single match found is `"1+2"` (the scan resumes after it
and `"+3"` matches nothing), so one run returns `"3+3"`; only a second run
of the evaluator folds the residue to the single literal `"6"`. -/
theorem pairwise_fold_one_match_per_run :
    findAll "1+2+3".data = ["1+2".data] ∧
      eval_expressions "1+2+3".data = some "3+3".data ∧
      eval_expressions "3+3".data = some "6".data := by
  exact ⟨by decide, by decide, by decide⟩

/-- Claim C4: unresolved-token pass-through.  A token `$u` matched by no
name of any of the four namespaces (no name equals or textually matches
inside it — with marker-free `u`, no name is a prefix of `u`) passes
through the Substitution Engine verbatim, and through the full generation
pipeline: it is never replaced by the empty string and no error is raised
(the digit-free side condition keeps the arithmetic stage away from the
token, as for names such as `unknown_name`). -/
theorem unresolved_token_passthrough (iface : Interface) (u : List Char)
    (hnames : ∀ M x, ((M, x) ∈ iface.part_constants ∨ (M, x) ∈ iface.dsn_variables ∨
      (M, x) ∈ iface.signal_groups ∨ (M, x) ∈ iface.signals) → ¬ M <+: u)
    (hd : '$' ∉ u)
    (hnum : ∀ c ∈ u, numChar c = false)
    (hc : iface.constraints = [some ('$' :: u)]) :
    variable_sub iface ('$' :: u) = '$' :: u ∧
      gen_constraints iface = some ['$' :: u] := by
  have hsub : variable_sub iface ('$' :: u) = '$' :: u := by
    unfold variable_sub
    rw [varSubOne_skip _ _ hd (fun M x hm => hnames M x (Or.inl hm)),
      varSubOne_skip _ _ hd (fun M x hm => hnames M x (Or.inr (Or.inl hm))),
      varSubOne_skip _ _ hd (fun M x hm => hnames M x (Or.inr (Or.inr (Or.inl hm)))),
      varSubOne_skip _ _ hd (fun M x hm => hnames M x (Or.inr (Or.inr (Or.inr hm))))]
  have hnum' : ∀ c ∈ '$' :: u, numChar c = false := by
    intro c hc'
    rcases List.mem_cons.mp hc' with h | h
    · rw [h]; decide
    · exact hnum c h
  have heval : eval_expressions ('$' :: u) = some ('$' :: u) :=
    eval_expressions_of_no_match _ (findAll_nil_of_no_num _ hnum')
  refine ⟨hsub, ?_⟩
  unfold gen_constraints
  rw [hc]
  simp [genLoop, hsub, heval]

/-- Witness for C4: on `ifaceUnknownTok` (only `clk` defined, constraint
template `$unknown_name`), the token passes through substitution and the
whole pipeline verbatim. -/
theorem unresolved_token_passthrough_witness :
    variable_sub ifaceUnknownTok ('$' :: "unknown_name".data) =
        '$' :: "unknown_name".data ∧
      gen_constraints ifaceUnknownTok = some ['$' :: "unknown_name".data] :=
  unresolved_token_passthrough ifaceUnknownTok "unknown_name".data
    (fun M x hm => by
      simp [ifaceUnknownTok] at hm
      rcases hm with ⟨hM, hx⟩
      rw [hM]
      decide)
    (by decide) (by decide) rfl

/-- Claim C5: generation pipeline postcondition.  `gen_constraints` equals
the spec-worded pipeline: in the stored declaration order, exactly one
line per constraint whose production is not the `None` sentinel, each line
the Expression Evaluator applied to the Substitution Engine applied to
that template (failing if and only if some line's evaluation raises); a
sentinel production contributes zero lines and no error. -/
theorem gen_constraints_matches_spec (iface : Interface) :
    gen_constraints iface = gen_constraints_spec_form iface :=
  genLoop_eq_spec iface iface.constraints

/-- Claim C6: arithmetic-fold error propagation.  If any matched text of
the pattern fails to evaluate (e.g. a division by zero), the whole
`eval_expressions` call propagates the failure instead of returning a
string. -/
theorem eval_error_propagates (s m : List Char) (hm : m ∈ findAll s)
    (hf : evalFold m = none) : eval_expressions s = none :=
  evalLoop_none_of_mem (findAll s) m hm hf s

/-- Witness for C6: `"1/0"` is matched, its evaluation raises
(`ZeroDivisionError`), and `eval_expressions` propagates the failure. -/
theorem eval_error_propagates_witness :
    "1/0".data ∈ findAll "1/0".data ∧ evalFold "1/0".data = none ∧
      eval_expressions "1/0".data = none :=
  ⟨by decide, by decide,
    eval_error_propagates "1/0".data "1/0".data (by decide) (by decide)⟩

/-- Claim C7: fold result format on the spec's examples.  The literal
`"10.0 + 2.5"` folds to `"12.5"` and `"3 - 1.25"` folds to `"1.75"`
(the matched expression replaced by its numeric result rounded to two
decimal places and rendered back as a string). -/
theorem numeric_folding_examples :
    eval_expressions "10.0 + 2.5".data = some "12.5".data ∧
      eval_expressions "3 - 1.25".data = some "1.75".data := by
  exact ⟨by decide, by decide⟩

/-- Claim C8: unknown-kind failure.  Parsing a constraints section that
contains a kind string unregistered in the Constraint Kind Registry (with
at least one constraint under it) fails with a configuration error
(`none`): the constraint is never silently dropped, and the factory
lookup, modelled from the spec, returns no default. -/
theorem unknown_kind_fails (registry : Registry) (kind n : List Char)
    (p : PropsM) (ds : List (List Char × PropsM))
    (sections : List (List Char × List (List Char × PropsM)))
    (hmem : (kind, (n, p) :: ds) ∈ sections)
    (hunk : constraint_factory registry kind = none) :
    parse_constraints registry sections = none :=
  parse_constraints_none_of_unknown registry kind n p ds sections hmem hunk

/-- Witness for C8: a registry knowing only `false_path` fails to parse a
section referencing the kind `bogus`. -/
theorem unknown_kind_fails_witness :
    parse_constraints registryOne yamlUnknownKind = none :=
  unknown_kind_fails registryOne "bogus".data "c1".data [] []
    yamlUnknownKind (by decide) rfl

/-- Claim C9: idempotence of evaluation.  When the evaluator's output for
`s` admits no new matches, re-running the evaluator on that output returns
it unchanged. -/
theorem eval_idempotent_on_output (s t : List Char)
    (h1 : eval_expressions s = some t) (h2 : findAll t = []) :
    eval_expressions t = some t :=
  eval_expressions_of_no_match t h2

/-- Witness for C9: `"1+2"` evaluates to `"3"`, which admits no matches
and is returned unchanged by a second run. -/
theorem eval_idempotent_on_output_witness :
    eval_expressions "1+2".data = some "3".data ∧ findAll "3".data = [] ∧
      eval_expressions "3".data = some "3".data :=
  ⟨by decide, by decide,
    eval_idempotent_on_output "1+2".data "3".data (by decide) (by decide)⟩

/-- Claim C10: a token whose name is a key of `part_constants` but whose
record's `value` was never populated (still the constructor's `None`)
substitutes to the literal four-character string `"None"` — not left
verbatim and raising no error. -/
theorem unset_value_substitutes_None (iface : Interface) (N : List Char)
    (pre post : List Binding)
    (hpcs : iface.part_constants = pre ++ (N, none) :: post)
    (hpre : ∀ M x, (M, x) ∈ pre → ¬ M <+: N)
    (hN : '$' ∉ N) :
    variable_sub iface ('$' :: N) = "None".data := by
  have hv : '$' ∉ strValue (none : Option (List Char)) := by decide
  unfold variable_sub
  rw [hpcs, varSubOne_hit pre post N none hpre hN hv,
    varSubOne_dollar_free _ _ hv, varSubOne_dollar_free _ _ hv,
    varSubOne_dollar_free _ _ hv]
  rfl

/-- Witness for C10: on `ifaceUnsetVal` (part constant `clk` never
populated), the token `$clk` substitutes to `"None"`. -/
theorem unset_value_substitutes_None_witness :
    variable_sub ifaceUnsetVal ('$' :: "clk".data) = "None".data :=
  unset_value_substitutes_None ifaceUnsetVal "clk".data [] [] rfl
    (fun M x hm => absurd hm (List.not_mem_nil (M, x))) (by decide)
